import Mathlib

/-!
Verification development for the DataImporter repository.

The definitions below are a shallow embedding of the Python source:
* `data_migrator.py`   — row hashing and the staging→warehouse reconciliation
  loop (`hash_row`, `process_table`), and warehouse provisioning
  (`ensure_dwh_table`);
* `database_importer.py` — load-path selection and batched transactional
  insertion (`insert_data`, `create_table`), and schema inference
  (`infer_sql_type`, `roundup`);
* `main.py`            — the archival step (`archive_file`).

Column values are modelled by their `str()` forms (`String`), timestamps
(`datetime.now()`) by an abstract `Nat` clock value supplied per step, and the
SHA-256 digest by an arbitrary function `digest : String → String`: every
behaviour of the reconciliation loop depends only on equality of digests, and
digest equality of equal pre-images holds for any function.
-/

/-- A warehouse row under the append-versioned policy: the original column
values plus the SCD columns `RowHash`, `IsActive` (1/0, modelled as `Bool`),
`ValidFrom` and nullable `ValidTo` (`data_migrator.py`, `ensure_dwh_table`
and `process_table`). The `RegionCode` column plays no part in the
reconciliation loop and is omitted. -/
structure DwhRow where
  data : List String
  rowHash : String
  isActive : Bool
  validFrom : Nat
  validTo : Option Nat
deriving DecidableEq, Repr

/-- `row_data = ''.join(str(col) for col in row)` in `hash_row`
(`data_migrator.py`): the column values concatenated with no separator. -/
def row_data (row : List String) : String :=
  String.join row

/-- `hash_row(row)` (`data_migrator.py`): the digest of the separator-free
concatenation of the row's column values. -/
def hash_row (digest : String → String) (row : List String) : String :=
  digest (row_data row)

/-- The existence check in `process_table` (`data_migrator.py`): `SELECT ...
WHERE RowHash == row_hash AND IsActive == 1` followed by `.first()` — is there
an active warehouse row carrying this hash? -/
def hasActiveHash (dwh : List DwhRow) (h : String) : Bool :=
  dwh.any (fun r => r.isActive && r.rowHash == h)

/-- One iteration of the `for stg_row in stg_rows` loop of `process_table`
(`data_migrator.py`): if an active row with the staging row's hash exists,
no action; otherwise insert a new active row (`ValidFrom = now`,
`ValidTo = None`) and then run
`UPDATE ... WHERE RowHash != row_hash SET IsActive = 0, ValidTo = now` over
the whole table (the update carries no `IsActive == 1` filter). -/
def processRow (digest : String → String) (now : Nat)
    (dwh : List DwhRow) (stgRow : List String) : List DwhRow :=
  let h := hash_row digest stgRow
  if hasActiveHash dwh h then
    dwh
  else
    let newRow : DwhRow :=
      { data := stgRow, rowHash := h, isActive := true,
        validFrom := now, validTo := none }
    (dwh ++ [newRow]).map (fun r =>
      if r.rowHash ≠ h then { r with isActive := false, validTo := some now }
      else r)

/-- The whole per-table loop of `process_table` (`data_migrator.py`): fold
`processRow` over the staging snapshot, each staging row paired with the
clock value `datetime.now()` observed while processing it. The surrounding
session commit/rollback is the identity on the success path modelled here. -/
def process_table (digest : String → String)
    (dwh : List DwhRow) (stg : List (Nat × List String)) : List DwhRow :=
  stg.foldl (fun d tr => processRow digest tr.1 d tr.2) dwh

/-- The spec's invariant on warehouse state: for a given hash, at most one
row is active at a time (no two distinct rows are both active with equal
hashes). -/
def atMostOneActivePerHash (dwh : List DwhRow) : Prop :=
  dwh.Pairwise (fun a b => a.isActive = true → b.isActive = true → a.rowHash ≠ b.rowHash)

instance (dwh : List DwhRow) : Decidable (atMostOneActivePerHash dwh) := by
  unfold atMostOneActivePerHash
  infer_instance

/-- A database catalog: the set of existing table names, plus a running count
of DDL statements executed against it (each `CREATE TABLE` / `DROP TABLE`
counts one). -/
structure Catalog where
  tables : List String
  ddlCount : Nat
deriving DecidableEq, Repr

/-- Split a character list at the first occurrence of `sep`; `none` when the
separator does not occur. -/
def split_first (sep : Char) : List Char → Option (List Char × List Char)
  | [] => none
  | c :: cs =>
    if c = sep then some ([], cs)
    else (split_first sep cs).map (fun p => (c :: p.1, p.2))

/-- `region_code, dwh_table_name = stg_table_name.split('_', 1)` in
`ensure_dwh_table` (`data_migrator.py`): one split at the first underscore;
a name with no underscore makes the unpacking raise, modelled by `none`. -/
def split_region (s : String) : Option (String × String) :=
  (split_first '_' s.toList).map (fun p => (String.mk p.1, String.mk p.2))

/-- `ensure_dwh_table(stg_table_name)` (`data_migrator.py`): derive the
warehouse table name from the staging name, check existence
(`dialect.has_table`), and only when absent issue the one `CREATE TABLE`.
Returns the updated catalog and the warehouse table name. -/
def ensure_dwh_table (c : Catalog) (stg_table_name : String) :
    Option (Catalog × String) :=
  (split_region stg_table_name).map (fun p =>
    let dwh_table_name := p.2
    if c.tables.contains dwh_table_name then (c, dwh_table_name)
    else ({ tables := dwh_table_name :: c.tables, ddlCount := c.ddlCount + 1 },
          dwh_table_name))

/-- `create_table(table_name, df)` (`database_importer.py`): the staging-side
provisioning path runs `metadata.drop_all(checkfirst=True)` — a `DROP TABLE`
whenever the table already exists — and then `metadata.create_all`, which
recreates it. -/
def create_table (c : Catalog) (table_name : String) : Catalog :=
  let afterDrop :=
    if c.tables.contains table_name then
      { tables := c.tables.erase table_name, ddlCount := c.ddlCount + 1 }
    else c
  { tables := table_name :: afterDrop.tables, ddlCount := afterDrop.ddlCount + 1 }

/-- A staging row for the loader: the parsed fields of one CSV record. -/
abbrev Row := List String

/-- `batch_size = 10000` in `insert_data` (`database_importer.py`). -/
def batch_size : Nat := 10000

/-- The `len(df) < 1000000` threshold in `insert_data`
(`database_importer.py`). -/
def row_threshold : Nat := 1000000

/-- The number of iterations of `for start in range(0, len(df), batch_size)`
in `insert_data`: the ceiling of `n / batch_size`. -/
def num_chunks (n : Nat) : Nat :=
  (n + batch_size - 1) / batch_size

/-- Take `n` successive slices `df[start:start+batch_size]`, as the batched
loop of `insert_data` does. -/
def chunk_from : List Row → Nat → List (List Row)
  | _, 0 => []
  | df, n + 1 => df.take batch_size :: chunk_from (df.drop batch_size) n

/-- The batch decomposition performed by `insert_data`'s
`for start in range(0, len(df), batch_size)` loop. -/
def chunk_rows (df : List Row) : List (List Row) :=
  chunk_from df (num_chunks df.length)

/-- Run the batched `to_sql` inserts inside the single transaction of
`insert_data`: chunk number `i` (counting from `i₀`) raises exactly when
`chunkFails i`; on a raise the transaction is rolled back (`none`), otherwise
all inserted rows are committed together. -/
def run_batches (chunkFails : Nat → Bool) : Nat → List (List Row) → Option (List Row)
  | _, [] => some []
  | i, c :: cs =>
    if chunkFails i then none
    else (run_batches chunkFails (i + 1) cs).map (fun rest => c ++ rest)

/-- The observable outcome of `insert_data` (`database_importer.py`): which
load path ran, the source-file reference the bulk path named, the committed
content of the destination table, and whether the error was re-raised to the
caller. -/
structure LoadResult where
  usedBulk : Bool
  fileRef : Option String
  table : List Row
  errored : Bool
deriving DecidableEq, Repr

/-- `insert_data(table_name, df, path_to_csv)` (`database_importer.py`).
`create_table` has just dropped and recreated the destination, so the load
starts from an empty table. If `len(df) < 1000000`, insert in batches of
10,000 inside one transaction, rolling back and re-raising on any chunk
failure; otherwise issue one `BULK INSERT ... FROM path_to_csv`, whose
success commits the file's rows (`fileRows`) and whose failure rolls back
and re-raises. -/
def insert_data (chunkFails : Nat → Bool) (bulkFails : Bool) (fileRows : List Row)
    (df : List Row) (path_to_csv : String) : LoadResult :=
  if df.length < row_threshold then
    match run_batches chunkFails 0 (chunk_rows df) with
    | some rows => { usedBulk := false, fileRef := none, table := rows, errored := false }
    | none => { usedBulk := false, fileRef := none, table := [], errored := true }
  else
    if bulkFails then
      { usedBulk := true, fileRef := some path_to_csv, table := [], errored := true }
    else
      { usedBulk := true, fileRef := some path_to_csv, table := fileRows, errored := false }

/-- The SQL types `infer_sql_type` (`database_importer.py`) can return.
String widths are `Option Nat`, with `none` standing for `'MAX'`. -/
inductive SqlType where
  | DECIMAL (precision scale : Nat)
  | Integer
  | BigInteger
  | DateTime
  | DATE
  | NVARCHAR (length : Option Nat)
  | Str (length : Option Nat)
  | Boolean
deriving DecidableEq, Repr

/-- A pandas `Series` as `infer_sql_type` observes it: the dtype family the
`pd.api.types` guards dispatch on, together with the sampled values the
branch actually inspects. -/
inductive Series where
  | floatS (count : Nat)
  | intS (vals : List Int)
  | dateTimeS (count : Nat)
  | strS (vals : List String)
  | boolS (vals : List Bool)
  | otherS
deriving DecidableEq, Repr

/-- `series.max() < 32767 and series.min() > -32767` in `infer_sql_type`
(`database_importer.py`); on an empty series both comparisons with `nan`
are false. -/
def intRangeOk : List Int → Bool
  | [] => false
  | v :: vs => decide (vs.foldl max v < 32767) && decide (vs.foldl min v > -32767)

/-- `roundup(x) = math.ceil(x / 10.0) * 10` (`database_importer.py`), on
naturals: ceiling division by 10, times 10. -/
def roundup (x : Nat) : Nat :=
  ((x + 9) / 10) * 10

/-- `length = 'MAX' if int(series.str.len().max()) > 4000 else
self.roundup(series.str.len().max())` in `infer_sql_type`: the width
computed for a string column from its maximum value length `L`. -/
def str_width (L : Nat) : Option Nat :=
  if 4000 < L then none else some (roundup L)

/-- `series.str.len().max()` for a string series: the maximum value length;
`none` on an empty series (where `int(nan)` raises in the source). -/
def strLenMax : List String → Option Nat
  | [] => none
  | v :: vs => some (vs.foldl (fun acc s => max acc s.length) v.length)

/-- One value's test under `series.str.contains(r'^\d{4}-\d{2}-\d{2}')`
(`database_importer.py`): `re.search` with a pattern anchored only at the
start, so the value matches exactly when it BEGINS with four digits, a
hyphen, two digits, a hyphen and two digits; trailing characters are
unconstrained. `\d` is modelled as the ASCII digits. -/
def matchesDateStart (s : String) : Bool :=
  match s.toList with
  | y1 :: y2 :: y3 :: y4 :: s1 :: m1 :: m2 :: s2 :: d1 :: d2 :: _ =>
    y1.isDigit && y2.isDigit && y3.isDigit && y4.isDigit && s1 == '-' &&
    m1.isDigit && m2.isDigit && s2 == '-' && d1.isDigit && d2.isDigit
  | _ => false

/-- Modelled from the spec: "every value fully matches an ISO `YYYY-MM-DD`
date pattern" — the whole value is consumed by the pattern, so it begins
with the pattern and has exactly its ten characters. Stated for comparison
with the source's start-anchored test `matchesDateStart`. -/
def fullDateMatch (s : String) : Bool :=
  matchesDateStart s && s.length == 10

/-- One value's test under `series.str.contains(r'[^\x00-\x7F]')`
(`database_importer.py`): does the value contain a code point above
`\x7F`? -/
def containsNonAscii (s : String) : Bool :=
  s.toList.any (fun c => 0x7F < c.toNat)

/-- `infer_sql_type(series)` (`database_importer.py`), following the source's
guard order: float dtype → `DECIMAL(38, 8)`; numeric dtype → `Integer` or
`BigInteger` by the `±32767` comparisons; datetime dtype → `DateTime`;
string/object dtype → compute the width from the maximum length, then
`DATE` when every value starts with the date pattern, else `NVARCHAR`
(width + 10 when bounded) when any value holds a non-ASCII character, else
`String` of that width; bool dtype → `Boolean`; otherwise `String(255)`.
The result is `none` only where the source raises (empty string series:
`int(nan)`). -/
def infer_sql_type : Series → Option SqlType
  | .floatS _ => some (.DECIMAL 38 8)
  | .intS vals => some (if intRangeOk vals then .Integer else .BigInteger)
  | .dateTimeS _ => some .DateTime
  | .strS vals =>
    (strLenMax vals).map (fun L =>
      let length := str_width L
      if vals.all matchesDateStart then .DATE
      else if vals.any containsNonAscii then .NVARCHAR (length.map (· + 10))
      else .Str length)
  | .boolS _ => some .Boolean
  | .otherS => some (.Str (some 255))

/-- The observable outcome of `archive_file` (`main.py`): which steps of the
`try` block completed, whether the failure was logged, and whether any
exception propagated to the caller. -/
structure ArchiveOutcome where
  zipCreated : Bool
  csvRemoved : Bool
  completeMoved : Bool
  loggedError : Bool
  raised : Bool
deriving DecidableEq, Repr

/-- `archive_file(csv_file_path, complete_file_path, archive_dir_path)`
(`main.py`): zip the CSV, remove the original, move the `.complete` marker —
all inside one `try` whose `except Exception` handler logs the error and
returns normally, re-raising nothing. The three Booleans say which step
raises. -/
def archive_file (zipFails removeFails moveFails : Bool) : ArchiveOutcome :=
  if zipFails then
    { zipCreated := false, csvRemoved := false, completeMoved := false,
      loggedError := true, raised := false }
  else if removeFails then
    { zipCreated := true, csvRemoved := false, completeMoved := false,
      loggedError := true, raised := false }
  else if moveFails then
    { zipCreated := true, csvRemoved := true, completeMoved := false,
      loggedError := true, raised := false }
  else
    { zipCreated := true, csvRemoved := true, completeMoved := true,
      loggedError := false, raised := false }

/-- C9: the claim says every caught exception is re-raised, and in particular a
failure of the archival step is surfaced to the caller of `archive_file`. The
code's own test (`TestArchiveFile.test_archive_file_with_exception`) expects
the re-raise, but the `except` handler in `archive_file` only logs: whichever
step fails, nothing propagates to the caller. -/
theorem c9_archive_error_swallowed (z r m : Bool) :
    (archive_file z r m).raised = false := by
  cases z <;> cases r <;> cases m <;> rfl

/-- C1 counterexample: an already-inactive warehouse row (hash `"x"`,
`ValidTo = 5`) is NOT left unchanged when a staging row with a new hash `"y"`
is processed — the unfiltered `UPDATE` rewrites its `ValidTo` to the current
clock value 9. -/
theorem c1_counterexample :
    (processRow (fun s => s) 9
        [{ data := ["x"], rowHash := "x", isActive := false,
           validFrom := 0, validTo := some 5 }] ["y"]).head? ≠
      some { data := ["x"], rowHash := "x", isActive := false,
             validFrom := 0, validTo := some 5 } := by
  decide

/-- C1 (amended): when no active warehouse row carries the staging row's hash,
`process_table`'s loop body inserts a new active row (`ValidFrom = now`,
`ValidTo` absent) and then sets `IsActive = 0` and `ValidTo = now` on every
other row whose hash differs — active or already inactive alike, since the
`UPDATE` has no `IsActive == 1` filter; rows carrying the same hash are left
unchanged. -/
theorem c1_deactivation_touches_all_other_rows (digest : String → String)
    (now : Nat) (dwh : List DwhRow) (stgRow : List String)
    (hna : hasActiveHash dwh (hash_row digest stgRow) = false) :
    processRow digest now dwh stgRow =
      dwh.map (fun r =>
        if r.rowHash = hash_row digest stgRow then r
        else { r with isActive := false, validTo := some now }) ++
      [{ data := stgRow, rowHash := hash_row digest stgRow, isActive := true,
         validFrom := now, validTo := none }] := by
  unfold processRow
  simp only [hna, if_false, Bool.false_eq_true, List.map_append, List.map_cons, List.map_nil]
  simp [ite_not]

/-- C1 witness: the amended theorem applied at a concrete input. -/
theorem c1_witness :
    hasActiveHash
        [{ data := ["x"], rowHash := "x", isActive := false,
           validFrom := 0, validTo := some 5 }]
        (hash_row (fun s => s) ["y"]) = false ∧
      processRow (fun s => s) 9
        [{ data := ["x"], rowHash := "x", isActive := false,
           validFrom := 0, validTo := some 5 }] ["y"] =
      [{ data := ["x"], rowHash := "x", isActive := false,
         validFrom := 0, validTo := some 5 }].map (fun r =>
          if r.rowHash = hash_row (fun s => s) ["y"] then r
          else { r with isActive := false, validTo := some 9 }) ++
      [{ data := ["y"], rowHash := hash_row (fun s => s) ["y"], isActive := true,
         validFrom := 9, validTo := none }] :=
  ⟨by decide,
   c1_deactivation_touches_all_other_rows (fun s => s) 9
     [{ data := ["x"], rowHash := "x", isActive := false,
        validFrom := 0, validTo := some 5 }] ["y"] (by decide)⟩

/-- C2 counterexample: the staging-side provisioning path `create_table` is
not DDL-idempotent — on the second call with the same name it drops and
recreates the table, so the catalog's DDL count changes again. -/
theorem c2_counterexample :
    (create_table (create_table { tables := [], ddlCount := 0 } "t") "t").ddlCount ≠
      (create_table { tables := [], ddlCount := 0 } "t").ddlCount := by
  decide

/-- C2 (amended): the warehouse-side `ensure_dwh_table` is idempotent — the
second call with the same staging name performs no DDL (the catalog is
unchanged) and the table exists after either call. The staging-side
`create_table` is not: the table exists after each call, but every repeat call
performs two further DDL statements (`DROP TABLE` then `CREATE TABLE`). -/
theorem c2_provisioning_idempotence (c : Catalog) (stg r dwh tname : String)
    (hsplit : split_region stg = some (r, dwh)) :
    (∃ c1, ensure_dwh_table c stg = some (c1, dwh) ∧
       c1.tables.contains dwh = true ∧
       ensure_dwh_table c1 stg = some (c1, dwh)) ∧
    (create_table c tname).tables.contains tname = true ∧
    (create_table (create_table c tname) tname).ddlCount =
      (create_table c tname).ddlCount + 2 := by
  refine ⟨?_, ?_, ?_⟩
  · by_cases hmem : dwh ∈ c.tables
    · exact ⟨c, by simp [ensure_dwh_table, hsplit, hmem],
        by simpa using hmem,
        by simp [ensure_dwh_table, hsplit, hmem]⟩
    · refine ⟨{ tables := dwh :: c.tables, ddlCount := c.ddlCount + 1 },
        by simp [ensure_dwh_table, hsplit, hmem], by simp, ?_⟩
      simp [ensure_dwh_table, hsplit]
  · simp [create_table]
  · simp [create_table]

/-- C2 witness: the amended theorem applied at a concrete catalog and names. -/
theorem c2_witness :
    split_region "eu_customers" = some ("eu", "customers") ∧
    ((∃ c1, ensure_dwh_table { tables := [], ddlCount := 0 } "eu_customers" =
          some (c1, "customers") ∧
        c1.tables.contains "customers" = true ∧
        ensure_dwh_table c1 "eu_customers" = some (c1, "customers")) ∧
      (create_table { tables := [], ddlCount := 0 } "t").tables.contains "t" = true ∧
      (create_table (create_table { tables := [], ddlCount := 0 } "t") "t").ddlCount =
        (create_table { tables := [], ddlCount := 0 } "t").ddlCount + 2) :=
  ⟨by decide,
   c2_provisioning_idempotence { tables := [], ddlCount := 0 }
     "eu_customers" "eu" "customers" "t" (by decide)⟩

/-- When no active row carries hash `h`, every row of `dwh` with that hash is
inactive (the negation of `process_table`'s existence query). -/
lemma inactive_of_hasActiveHash_false {dwh : List DwhRow} {h : String}
    (hna : hasActiveHash dwh h = false) :
    ∀ r ∈ dwh, r.isActive = true → r.rowHash ≠ h := by
  intro r hr hact heq
  simp [hasActiveHash] at hna
  exact hna r hr hact heq

/-- One loop iteration of `process_table` preserves the at-most-one-active
row-per-hash invariant. -/
lemma processRow_preserves_inv (digest : String → String) (now : Nat)
    (dwh : List DwhRow) (stgRow : List String)
    (hinv : atMostOneActivePerHash dwh) :
    atMostOneActivePerHash (processRow digest now dwh stgRow) := by
  unfold processRow
  by_cases hfound : hasActiveHash dwh (hash_row digest stgRow) = true
  · rw [if_pos hfound]
    exact hinv
  · have hna : hasActiveHash dwh (hash_row digest stgRow) = false :=
      Bool.eq_false_iff.mpr hfound
    have hkey := inactive_of_hasActiveHash_false hna
    simp only [hna, Bool.false_eq_true, if_false]
    unfold atMostOneActivePerHash
    rw [List.pairwise_map, List.pairwise_append]
    set h := hash_row digest stgRow with hh
    set f : DwhRow → DwhRow := fun r =>
      if r.rowHash ≠ h then { r with isActive := false, validTo := some now }
      else r with hf
    have hinact : ∀ a ∈ dwh, (f a).isActive = true → False := by
      intro a ha hact
      by_cases hne : a.rowHash ≠ h
      · rw [hf] at hact
        simp [hne] at hact
      · have haeq : a.rowHash = h := not_not.mp hne
        have : (f a) = a := by simp [hf, haeq]
        rw [this] at hact
        exact hkey a ha hact haeq
    refine ⟨?_, ?_, ?_⟩
    · exact List.pairwise_of_forall_mem_list
        (fun a ha b _ hact => absurd hact (fun hc => hinact a ha hc))
    · exact List.pairwise_singleton _ _
    · intro a ha b _ hact
      exact absurd hact (fun hc => hinact a ha hc)

/-- C3: every staging snapshot processed by `process_table` preserves the
warehouse invariant that, for each distinct row hash, at most one warehouse
row has the active flag set — including snapshots with several distinct
hashes and snapshots with duplicate rows. -/
theorem c3_at_most_one_active_preserved (digest : String → String)
    (stg : List (Nat × List String)) (dwh : List DwhRow)
    (hinv : atMostOneActivePerHash dwh) :
    atMostOneActivePerHash (process_table digest dwh stg) := by
  induction stg generalizing dwh with
  | nil => exact hinv
  | cons tr rest ih =>
    have hstep := processRow_preserves_inv digest tr.1 dwh tr.2 hinv
    simpa [process_table] using ih (processRow digest tr.1 dwh tr.2) hstep

/-- C3 witness: the invariant theorem applied to an empty warehouse and a
snapshot holding two distinct hashes and a duplicated row. -/
theorem c3_witness :
    atMostOneActivePerHash [] ∧
      atMostOneActivePerHash (process_table (fun s => s) []
        [(0, ["a"]), (1, ["b"]), (2, ["a"]), (3, ["a"])]) :=
  ⟨List.Pairwise.nil,
   c3_at_most_one_active_preserved (fun s => s)
     [(0, ["a"]), (1, ["b"]), (2, ["a"]), (3, ["a"])] [] List.Pairwise.nil⟩

/-- C10: `hash_row` concatenates the column values with no separator, so the
distinct rows `('ab','c')` and `('a','bc')` have identical pre-images and
hence identical digests under any digest function; after the first row is
migrated, `process_table`'s loop body finds its active warehouse row when it
reaches the second and takes no action for it. -/
theorem c10_hash_collision_across_columns (digest : String → String) (t0 t1 : Nat) :
    hash_row digest ["ab", "c"] = hash_row digest ["a", "bc"] ∧
    (["ab", "c"] : List String) ≠ ["a", "bc"] ∧
    processRow digest t1 (processRow digest t0 [] ["ab", "c"]) ["a", "bc"] =
      processRow digest t0 [] ["ab", "c"] := by
  have hjoin : row_data ["ab", "c"] = row_data ["a", "bc"] := by decide
  refine ⟨congrArg digest hjoin, by decide, ?_⟩
  simp only [processRow, hash_row, hjoin, hasActiveHash]
  simp

/-- The batched loop attempts exactly `n` chunks. -/
lemma chunk_from_length : ∀ (df : List Row) (n : Nat), (chunk_from df n).length = n
  | _, 0 => rfl
  | df, n + 1 => by simp [chunk_from, chunk_from_length (df.drop batch_size) n]

/-- Every chunk the batched loop inserts holds at most `batch_size` rows. -/
lemma chunk_from_size : ∀ (df : List Row) (n : Nat),
    ∀ c ∈ chunk_from df n, c.length ≤ batch_size := by
  intro df n
  induction n generalizing df with
  | zero => intro c hc; simp [chunk_from] at hc
  | succ n ih =>
    intro c hc
    rcases List.mem_cons.mp hc with h | h
    · rw [h]
      exact List.length_take_le batch_size df
    · exact ih (df.drop batch_size) c h

/-- Concatenating the chunks recovers the rows, provided enough iterations
are taken. -/
lemma chunk_from_join : ∀ (n : Nat) (df : List Row),
    df.length ≤ n * batch_size → (chunk_from df n).flatten = df := by
  intro n
  induction n with
  | zero =>
    intro df hlen
    have : df = [] := List.eq_nil_of_length_eq_zero (Nat.le_zero.mp (by simpa using hlen))
    simp [this, chunk_from]
  | succ n ih =>
    intro df hlen
    have hdrop : (df.drop batch_size).length ≤ n * batch_size := by
      rw [List.length_drop]
      have : (n + 1) * batch_size = n * batch_size + batch_size := by ring
      omega
    simp only [chunk_from, List.flatten_cons, ih (df.drop batch_size) hdrop]
    exact List.take_append_drop batch_size df

/-- `num_chunks` iterations cover the whole input. -/
lemma length_le_num_chunks_mul (n : Nat) : n ≤ num_chunks n * batch_size := by
  have hdm := Nat.div_add_mod (n + batch_size - 1) batch_size
  have hlt : (n + batch_size - 1) % batch_size < batch_size :=
    Nat.mod_lt _ (by simp [batch_size])
  simp only [num_chunks, batch_size] at *
  omega

/-- The batch decomposition of `insert_data` is a partition of the input. -/
lemma chunk_rows_join (df : List Row) : (chunk_rows df).flatten = df :=
  chunk_from_join (num_chunks df.length) df (length_le_num_chunks_mul df.length)

/-- If any attempted chunk fails, the transaction is rolled back. -/
lemma run_batches_fails (chunkFails : Nat → Bool) :
    ∀ (cs : List (List Row)) (i : Nat),
      (∃ j, j < cs.length ∧ chunkFails (i + j) = true) →
      run_batches chunkFails i cs = none := by
  intro cs
  induction cs with
  | nil =>
    rintro i ⟨j, hj, -⟩
    simp at hj
  | cons c cs ih =>
    rintro i ⟨j, hj, hf⟩
    by_cases h0 : chunkFails i = true
    · simp [run_batches, h0]
    · have hj0 : j ≠ 0 := by
        rintro rfl
        exact h0 (by simpa using hf)
      obtain ⟨k, rfl⟩ := Nat.exists_eq_succ_of_ne_zero hj0
      have : run_batches chunkFails (i + 1) cs = none := by
        refine ih (i + 1) ⟨k, by simpa using hj, ?_⟩
        have : i + 1 + k = i + (k + 1) := by omega
        rw [this]
        exact hf
      simp [run_batches, h0, this]

/-- C4: for a DataFrame below the 1,000,000-row threshold, a failure while
inserting any chunk of the batched load — the last one included — rolls the
whole-table transaction back (zero rows of the load remain committed) and
re-raises the error to the caller. -/
theorem c4_chunk_failure_rolls_back (chunkFails : Nat → Bool) (bulkFails : Bool)
    (fileRows : List Row) (df : List Row) (path : String)
    (hsmall : df.length < 1000000)
    (hfail : ∃ j, j < (chunk_rows df).length ∧ chunkFails j = true) :
    (insert_data chunkFails bulkFails fileRows df path).errored = true ∧
    (insert_data chunkFails bulkFails fileRows df path).table = [] := by
  have hnone : run_batches chunkFails 0 (chunk_rows df) = none := by
    refine run_batches_fails chunkFails (chunk_rows df) 0 ?_
    simpa using hfail
  simp [insert_data, row_threshold, hsmall, hnone]

/-- C4 witness: a 10,001-row load (two batches) whose second and last chunk
fails commits nothing and errors. -/
theorem c4_witness :
    (List.replicate 10001 ([] : Row)).length < 1000000 ∧
    (∃ j, j < (chunk_rows (List.replicate 10001 ([] : Row))).length ∧
       (j == 1) = true) ∧
    (insert_data (fun j => j == 1) false [] (List.replicate 10001 ([] : Row)) "f").errored
        = true ∧
    (insert_data (fun j => j == 1) false [] (List.replicate 10001 ([] : Row)) "f").table
        = [] := by
  have hsmall : (List.replicate 10001 ([] : Row)).length < 1000000 := by
    rw [List.length_replicate]; norm_num
  have hlen : (chunk_rows (List.replicate 10001 ([] : Row))).length = 2 := by
    rw [chunk_rows, chunk_from_length, List.length_replicate]; rfl
  refine ⟨hsmall, ⟨1, by rw [hlen]; norm_num, rfl⟩, ?_⟩
  exact c4_chunk_failure_rolls_back (fun j => j == 1) false []
    (List.replicate 10001 ([] : Row)) "f" hsmall
    ⟨1, by rw [hlen]; norm_num, rfl⟩

/-- C5: `insert_data` selects the load path exactly by the row-count
threshold — below 1,000,000 rows it runs the batched transactional insert
whose chunks of at most 10,000 rows partition the DataFrame and which names
no source file; at 1,000,000 rows or more it runs the single bulk-file load
referencing the source file. -/
theorem c5_load_path_threshold (chunkFails : Nat → Bool) (bulkFails : Bool)
    (fileRows : List Row) (df : List Row) (path : String) :
    (df.length < 1000000 →
       (insert_data chunkFails bulkFails fileRows df path).usedBulk = false ∧
       (insert_data chunkFails bulkFails fileRows df path).fileRef = none ∧
       (∀ c ∈ chunk_rows df, c.length ≤ 10000) ∧
       (chunk_rows df).flatten = df) ∧
    (1000000 ≤ df.length →
       (insert_data chunkFails bulkFails fileRows df path).usedBulk = true ∧
       (insert_data chunkFails bulkFails fileRows df path).fileRef = some path) := by
  constructor
  · intro hsmall
    refine ⟨?_, ?_, chunk_from_size df (num_chunks df.length), chunk_rows_join df⟩ <;>
      · cases hrb : run_batches chunkFails 0 (chunk_rows df) <;>
          simp [insert_data, row_threshold, hsmall, hrb]
  · intro hbig
    have hnot : ¬ df.length < row_threshold := by simp [row_threshold]; omega
    cases bulkFails <;> simp [insert_data, hnot]

/-- C5 witness: the threshold theorem applied at 999,999 rows (batched path)
and at 1,000,000 rows (bulk path). -/
theorem c5_witness :
    (insert_data (fun _ => false) false [] (List.replicate 999999 ([] : Row)) "f").usedBulk
        = false ∧
    (insert_data (fun _ => false) false [] (List.replicate 1000000 ([] : Row)) "f").usedBulk
        = true := by
  constructor
  · exact ((c5_load_path_threshold (fun _ => false) false []
      (List.replicate 999999 ([] : Row)) "f").1
        (by rw [List.length_replicate]; norm_num)).1
  · exact ((c5_load_path_threshold (fun _ => false) false []
      (List.replicate 1000000 ([] : Row)) "f").2
        (by rw [List.length_replicate])).1

/-- A left fold of `max` stays below a bound exactly when the seed and every
element do. -/
lemma foldl_max_lt_iff (k : Int) : ∀ (l : List Int) (a : Int),
    l.foldl max a < k ↔ a < k ∧ ∀ x ∈ l, x < k := by
  intro l
  induction l with
  | nil => simp
  | cons b l ih =>
    intro a
    rw [List.foldl_cons, ih (max a b)]
    simp only [max_lt_iff, List.mem_cons]
    constructor
    · rintro ⟨⟨ha, hb⟩, hall⟩
      exact ⟨ha, fun x hx => hx.elim (fun hxb => hxb ▸ hb) (hall x)⟩
    · rintro ⟨ha, hall⟩
      exact ⟨⟨ha, hall b (Or.inl rfl)⟩, fun x hx => hall x (Or.inr hx)⟩

/-- A left fold of `min` stays above a bound exactly when the seed and every
element do. -/
lemma lt_foldl_min_iff (k : Int) : ∀ (l : List Int) (a : Int),
    k < l.foldl min a ↔ k < a ∧ ∀ x ∈ l, k < x := by
  intro l
  induction l with
  | nil => simp
  | cons b l ih =>
    intro a
    rw [List.foldl_cons, ih (min a b)]
    simp only [lt_min_iff, List.mem_cons]
    constructor
    · rintro ⟨⟨ha, hb⟩, hall⟩
      exact ⟨ha, fun x hx => hx.elim (fun hxb => hxb ▸ hb) (hall x)⟩
    · rintro ⟨ha, hall⟩
      exact ⟨⟨ha, hall b (Or.inl rfl)⟩, fun x hx => hall x (Or.inr hx)⟩

/-- The `±32767` comparisons of `infer_sql_type` hold exactly when every
value lies strictly between `-32767` and `32767`. -/
lemma intRangeOk_iff (vals : List Int) (h : vals ≠ []) :
    intRangeOk vals = true ↔ ∀ v ∈ vals, -32767 < v ∧ v < 32767 := by
  match vals with
  | v :: vs =>
    simp only [intRangeOk, Bool.and_eq_true, decide_eq_true_eq,
      foldl_max_lt_iff, lt_foldl_min_iff, gt_iff_lt, List.mem_cons]
    constructor
    · rintro ⟨⟨hv1, hall1⟩, ⟨hv2, hall2⟩⟩
      rintro x (rfl | hx)
      · exact ⟨hv2, hv1⟩
      · exact ⟨hall2 x hx, hall1 x hx⟩
    · intro hall
      exact ⟨⟨(hall v (Or.inl rfl)).2, fun x hx => (hall x (Or.inr hx)).2⟩,
        ⟨(hall v (Or.inl rfl)).1, fun x hx => (hall x (Or.inr hx)).1⟩⟩

/-- C6 counterexample: the single value 32767 fits in the signed 16-bit range
`[-32768, 32767]`, yet `infer_sql_type` classifies the column as
`BigInteger`, not `Integer` — its comparison is `max < 32767`, strict. -/
theorem c6_counterexample :
    (∀ v ∈ ([32767] : List Int), -32768 ≤ v ∧ v ≤ 32767) ∧
    infer_sql_type (.intS [32767]) = some .BigInteger ∧
    infer_sql_type (.intS [32767]) ≠ some .Integer := by
  refine ⟨by decide, by decide, by decide⟩

/-- C6 (amended): an integer column is classified `Integer` exactly when
every value lies strictly between `-32767` and `32767` (so within
`[-32766, 32766]`), else `BigInteger`; in particular max 32766 and min
-32766 yield `Integer`, and a maximum of 32767 yields `BigInteger`. -/
theorem c6_integer_range_boundary (vals : List Int) (h : vals ≠ []) :
    (infer_sql_type (.intS vals) = some .Integer ↔
       ∀ v ∈ vals, -32767 < v ∧ v < 32767) ∧
    infer_sql_type (.intS [32766, -32766]) = some .Integer ∧
    infer_sql_type (.intS [32767]) = some .BigInteger := by
  refine ⟨?_, by decide, by decide⟩
  rw [show infer_sql_type (.intS vals) =
      some (if intRangeOk vals then .Integer else .BigInteger) from rfl]
  constructor
  · intro heq
    by_cases hok : intRangeOk vals = true
    · exact (intRangeOk_iff vals h).mp hok
    · rw [Bool.eq_false_iff.mpr hok] at heq
      simp at heq
  · intro hall
    rw [(intRangeOk_iff vals h).mpr hall]
    rfl

/-- C6 witness: the amended theorem applied to the one-value column `[0]`. -/
theorem c6_witness :
    ([(0 : Int)] ≠ []) ∧
    ((infer_sql_type (.intS [0]) = some .Integer ↔
        ∀ v ∈ ([0] : List Int), -32767 < v ∧ v < 32767) ∧
      infer_sql_type (.intS [32766, -32766]) = some .Integer ∧
      infer_sql_type (.intS [32767]) = some .BigInteger) :=
  ⟨by decide, c6_integer_range_boundary [0] (by decide)⟩

/-- The string/object branch of `infer_sql_type`, with the maximum length
named: `DATE` when every value starts with the date pattern, else `NVARCHAR`
of the padded width when any value has a non-ASCII character, else `String`
of the computed width. -/
lemma infer_strS_eq (vals : List String) (L : Nat) (h : strLenMax vals = some L) :
    infer_sql_type (.strS vals) =
      some (if vals.all matchesDateStart then .DATE
        else if vals.any containsNonAscii then .NVARCHAR ((str_width L).map (· + 10))
        else .Str (str_width L)) := by
  simp [infer_sql_type, h]

/-- The maximum length over a one-value column of `n` repeated characters. -/
lemma strLenMax_mk_replicate (n : Nat) (c : Char) :
    strLenMax [String.mk (List.replicate n c)] = some n := by
  simp only [strLenMax, List.foldl_nil, String.length_mk, List.length_replicate]

/-- A value whose first character is not a digit does not start with the date
pattern (stated for values of at least ten characters, where the pattern's
branch is reached). -/
lemma matchesDateStart_mk_cons10 (c1 c2 c3 c4 c5 c6 c7 c8 c9 c10 : Char)
    (cs : List Char) (h : c1.isDigit = false) :
    matchesDateStart (String.mk (c1 :: c2 :: c3 :: c4 :: c5 :: c6 :: c7 :: c8 :: c9 :: c10 :: cs)) = false := by
  simp [matchesDateStart, h]

/-- A value made of repeated `'a'` characters holds no non-ASCII code
point. -/
lemma containsNonAscii_replicate_a (n : Nat) :
    containsNonAscii (String.mk (List.replicate n 'a')) = false := by
  simp only [containsNonAscii]
  rw [List.any_eq_false]
  intro c hc
  rw [List.eq_of_mem_replicate hc]
  decide

/-- A one-value column of `n ≥ 10` repeated `'a'`s is classified `String`
with the computed width for `L = n`. -/
lemma infer_replicate_a (n : Nat) (h10 : 10 ≤ n) :
    infer_sql_type (.strS [String.mk (List.replicate n 'a')]) =
      some (.Str (str_width n)) := by
  rw [infer_strS_eq _ n (strLenMax_mk_replicate n 'a')]
  obtain ⟨m, rfl⟩ : ∃ m, n = m + 10 := ⟨n - 10, by omega⟩
  have hsplit : List.replicate (m + 10) 'a' =
      'a' :: 'a' :: 'a' :: 'a' :: 'a' :: 'a' :: 'a' :: 'a' :: 'a' :: 'a' :: List.replicate m 'a' := by
    rw [Nat.add_comm, List.replicate_add]
    rfl
  have hd : matchesDateStart (String.mk (List.replicate (m + 10) 'a')) = false := by
    rw [hsplit]
    exact matchesDateStart_mk_cons10 _ _ _ _ _ _ _ _ _ _ _ (by decide)
  simp [hd, containsNonAscii_replicate_a]

/-- C7 counterexample: a string column whose longest value has length 23 but
holds a non-ASCII character is classified `NVARCHAR` with width 40 — the
rounded width 30 plus the 10-character padding — so the claim's "width L
rounded up to the next multiple of 10" does not hold for every
string-classified column. -/
theorem c7_counterexample :
    strLenMax [String.mk ('é' :: List.replicate 22 'a')] = some 23 ∧
    infer_sql_type (.strS [String.mk ('é' :: List.replicate 22 'a')]) =
      some (.NVARCHAR (some 40)) ∧
    infer_sql_type (.strS [String.mk ('é' :: List.replicate 22 'a')]) ≠
      some (.NVARCHAR (some 30)) ∧
    infer_sql_type (.strS [String.mk ('é' :: List.replicate 22 'a')]) ≠
      some (.Str (some 30)) := by
  refine ⟨by decide, by decide, by decide, by decide⟩

/-- C7 (amended): for every string column, the computed width is the maximum
observed length `L` rounded up to the next multiple of 10 when `L ≤ 4000`
and unbounded (`'MAX'`) when `L > 4000`; a column classified `String`
receives exactly that width, while a column classified `NVARCHAR` (some
value non-ASCII) receives that width plus 10 when it is bounded. In
particular all-ASCII columns with `L` = 23, 4000 and 4001 receive widths
30, 4000 and `'MAX'`. -/
theorem c7_string_width_rule (vals : List String) (L : Nat)
    (h : strLenMax vals = some L) :
    (L ≤ 4000 → str_width L = some (roundup L)) ∧
    (4000 < L → str_width L = none) ∧
    (infer_sql_type (.strS vals) = some .DATE ∨
     infer_sql_type (.strS vals) = some (.NVARCHAR ((str_width L).map (· + 10))) ∨
     infer_sql_type (.strS vals) = some (.Str (str_width L))) ∧
    infer_sql_type (.strS [String.mk (List.replicate 23 'a')]) =
      some (.Str (some 30)) ∧
    infer_sql_type (.strS [String.mk (List.replicate 4000 'a')]) =
      some (.Str (some 4000)) ∧
    infer_sql_type (.strS [String.mk (List.replicate 4001 'a')]) =
      some (.Str none) := by
  refine ⟨?_, ?_, ?_, ?_, ?_, ?_⟩
  · intro hle
    simp [str_width, Nat.not_lt.mpr hle]
  · intro hlt
    simp [str_width, hlt]
  · rw [infer_strS_eq vals L h]
    by_cases hdate : vals.all matchesDateStart = true
    · exact Or.inl (by simp [hdate])
    · by_cases huni : vals.any containsNonAscii = true
      · exact Or.inr (Or.inl (by simp [hdate, huni]))
      · exact Or.inr (Or.inr (by simp [hdate, huni]))
  · rw [infer_replicate_a 23 (by omega)]
    rfl
  · rw [infer_replicate_a 4000 (by omega)]
    rfl
  · rw [infer_replicate_a 4001 (by omega)]
    rfl

/-- C7 witness: the width theorem applied to the column `["abc"]`. -/
theorem c7_witness :
    strLenMax ["abc"] = some 3 ∧
    ((3 ≤ 4000 → str_width 3 = some (roundup 3)) ∧
      (4000 < 3 → str_width 3 = none) ∧
      (infer_sql_type (.strS ["abc"]) = some .DATE ∨
       infer_sql_type (.strS ["abc"]) = some (.NVARCHAR ((str_width 3).map (· + 10))) ∨
       infer_sql_type (.strS ["abc"]) = some (.Str (str_width 3))) ∧
      infer_sql_type (.strS [String.mk (List.replicate 23 'a')]) =
        some (.Str (some 30)) ∧
      infer_sql_type (.strS [String.mk (List.replicate 4000 'a')]) =
        some (.Str (some 4000)) ∧
      infer_sql_type (.strS [String.mk (List.replicate 4001 'a')]) =
        some (.Str none)) :=
  ⟨by decide, c7_string_width_rule ["abc"] 3 (by decide)⟩

/-- C8 counterexample: the value `"2021-01-01x"` does not fully match the
ISO date pattern (it has a trailing character), yet `infer_sql_type`
classifies the column as `DATE`: the regex `^\d{4}-\d{2}-\d{2}` is anchored
only at the start. -/
theorem c8_counterexample :
    fullDateMatch "2021-01-01x" = false ∧
    infer_sql_type (.strS ["2021-01-01x"]) = some .DATE := by
  refine ⟨by decide, by decide⟩

/-- C8 (amended): a string column is classified `Date` if and only if every
sampled value BEGINS with the `YYYY-MM-DD` pattern — trailing characters
after the ten-character prefix are not examined. -/
theorem c8_date_prefix_match (vals : List String) (L : Nat)
    (h : strLenMax vals = some L) :
    infer_sql_type (.strS vals) = some .DATE ↔
      vals.all matchesDateStart = true := by
  rw [infer_strS_eq vals L h]
  by_cases hdate : vals.all matchesDateStart = true
  · simp [hdate]
  · by_cases huni : vals.any containsNonAscii = true
    · simp [hdate, huni]
    · simp [hdate, huni]

/-- C8 witness: the amended theorem applied to the columns it speaks about. -/
theorem c8_witness :
    strLenMax ["2021-01-01x"] = some 11 ∧
    (infer_sql_type (.strS ["2021-01-01x"]) = some .DATE ↔
      (["2021-01-01x"].all matchesDateStart) = true) :=
  ⟨by decide, c8_date_prefix_match ["2021-01-01x"] 11 (by decide)⟩
